import Mathlib

/-!
Verification development for the rss-to-notion synchronization engine.

The TypeScript sources are shallowly embedded as Lean definitions:

* pure data records (src/types.ts) become structures; the union-typed
  decision and priority fields are kept as raw strings, mirroring the fact
  that the implementation performs unchecked casts on values parsed from
  JSON and never validates them against the nominal vocabulary;
* timestamps are modelled by their epoch-millisecond value: every place the
  source calls new Date(x).getTime() the model applies an explicit
  parameter pubMs : String -> Int standing for the Date library;
* network effects are modelled by passing the observable outcome of each
  outbound call as an explicit argument (a response per classification
  batch, an outcome per record-create call);
* the two worker pools (rss.ts mapWithConcurrency and the batch pool inside
  ai.ts aiTriage) are modelled by a small transition system over worker
  states sharing a claim counter, matching the shared-index pull loop of
  the source.
-/

/-- Classification record attached to an item (src/types.ts AITriageResult).
Decision and priority are raw strings: the source parses them from JSON and
casts without validation. -/
structure AITriageResult where
  decision : String
  priority : String
  topics : List String
  reason : String
  abstract : Option String
deriving DecidableEq, Repr

/-- One normalized feed item (src/types.ts FeedItem). The pubDate field keeps
the string representation produced by normalization; consumers parse it with
an explicit date-parsing parameter. -/
structure FeedItem where
  guid : String
  title : String
  link : String
  pubDate : String
  summary : String
  source : String
  ai : Option AITriageResult
deriving DecidableEq, Repr

/-- Rolling per-feed quality statistics (src/types.ts FeedStats). -/
structure FeedStats where
  total : Nat
  kept : Nat
  deprioritized : Nat
  ignored : Nat
  quality : Rat
  lastUpdated : String
deriving DecidableEq, Repr

/-- Per-feed persisted state: seen-guid map plus optional stats
(src/types.ts StateStructure, one entry). JavaScript objects are modelled as
association lists in insertion order. -/
structure FeedState where
  seen : List (String × Bool)
  stats : Option FeedStats
deriving DecidableEq, Repr

/-- The whole persisted state document (src/types.ts StateStructure). -/
structure StateStructure where
  feeds : List (String × FeedState)
deriving DecidableEq, Repr

/-- A feed descriptor (src/types.ts Feed). -/
structure Feed where
  url : String
  title : String
deriving DecidableEq, Repr

/-- JavaScript truthiness-based string alternation: a || b where an empty
string is falsy. -/
def jsOr (a b : Option String) : Option String :=
  match a with
  | none => b
  | some s => if s = "" then b else some s

/-- First-key association lookup, the reading of a JavaScript object
property over the insertion-ordered model. -/
def assocLookup : List (String × α) → String → Option α
  | [], _ => none
  | (k, v) :: rest, g => if k = g then some v else assocLookup rest g

/-- Truthy lookup in a seen map: feedState.seen[guid] is truthy exactly when
the key is present with value true. -/
def seenTruthy (m : List (String × Bool)) (g : String) : Bool :=
  (assocLookup m g).getD false

/-- JavaScript object assignment m[g] = v: overwrite the entry in place when
the key is present, append at the end otherwise. -/
def jsSet : List (String × Bool) → String → Bool → List (String × Bool)
  | [], g, v => [(g, v)]
  | (k, w) :: rest, g, v => if k = g then (k, v) :: rest else (k, w) :: jsSet rest g v

/-- Digit pair check of the stale-URL regex (src/rss.ts line 25): the third
and fourth digits of the alternation 201[0-9] or 202[0-3]; returns the parsed
year on a match. Character classes are expanded into code-point bounds
exactly as the regex engine checks them. -/
def yearDigits (c d : Char) : Option Nat :=
  if c = '1' && (48 ≤ d.toNat && d.toNat ≤ 57) then some (2010 + (d.toNat - 48))
  else if c = '2' && (48 ≤ d.toNat && d.toNat ≤ 51) then some (2020 + (d.toNat - 48))
  else none

/-- Does the regex pattern of src/rss.ts line 25 match at the head of the
character list: a slash, the digits 2 0, two digits forming 201x or 202x with
x at most 3, then a slash. -/
def yearAt : List Char → Option Nat
  | '/' :: '2' :: '0' :: c :: d :: '/' :: _ => yearDigits c d
  | _ => none

/-- Leftmost regex match: the first position whose six-character window
matches the stale-year pattern, as link.match(...) returns in src/rss.ts. -/
def firstYearToken : List Char → Option Nat
  | [] => none
  | c :: rest =>
    match yearAt (c :: rest) with
    | some y => some y
    | none => firstYearToken rest

/-- Existence form: does any position of the list match the stale-year
pattern. Used to characterize the heuristic independently of the leftmost
match choice. -/
def anyStaleToken : List Char → Bool
  | [] => false
  | c :: rest => (yearAt (c :: rest)).isSome || anyStaleToken rest

/-- The stale-URL drop decision of src/rss.ts lines 24-33: take the first
match of the hardcoded year window 2010-2023 delimited by slashes and drop
when that year is below currentYear - 1. -/
def staleUrlDrop (link : String) (currentYear : Nat) : Bool :=
  match firstYearToken link.toList with
  | some y => decide (y < currentYear - 1)
  | none => false

/-- One raw item as delivered by the rss-parser collaborator
(src/rss.ts fetchFeedItems input); every field may be missing. -/
structure RawItem where
  guid : Option String
  id : Option String
  link : Option String
  enclosureUrl : Option String
  title : Option String
  isoDate : Option String
  pubDate : Option String
  contentSnippet : Option String
  content : Option String
deriving DecidableEq, Repr

/-- The link computed by normalization: it.link or it.enclosure.url or the
empty string (src/rss.ts line 22). -/
def rawItemLink (it : RawItem) : String :=
  (jsOr it.link it.enclosureUrl).getD ""

/-- Normalization of one raw item (src/rss.ts lines 21-44): returns none
exactly when the stale-URL heuristic fires, otherwise the normalized
FeedItem with the fallback chains of the source. The parsedTitle, nowIso and
hostname arguments stand for parsed.title, the current ISO timestamp and the
URL-hostname collaborator. -/
def normalizeItem (feed : Feed) (parsedTitle : Option String) (nowIso hostname : String)
    (currentYear : Nat) (it : RawItem) : Option FeedItem :=
  let link := rawItemLink it
  if staleUrlDrop link currentYear then none
  else some {
    guid := (jsOr it.guid (jsOr it.id (if link = "" then none else some link))).getD
      (feed.url ++ "#" ++ it.title.getD "no-title"),
    title := (jsOr it.title none).getD "(no title)",
    link := link,
    pubDate := (jsOr it.isoDate (jsOr it.pubDate none)).getD nowIso,
    summary := (jsOr it.contentSnippet (jsOr it.content none)).getD "",
    source := (jsOr (some feed.title) (jsOr parsedTitle none)).getD hostname,
    ai := none }

/-- The fetch-stage normalization and stale filter over a whole parsed item
list: map then filter(Boolean) of src/rss.ts lines 21-44. -/
def fetchNormalize (feed : Feed) (parsedTitle : Option String) (nowIso hostname : String)
    (currentYear : Nat) (items : List RawItem) : List FeedItem :=
  items.filterMap (normalizeItem feed parsedTitle nowIso hostname currentYear)

/-- Maximal digit runs of a character list, used only to express the claim
side of the stale-URL statement (which speaks of year tokens embedded in the
URL). Modelled from the spec: a year token is a maximal run of digits of
length four. -/
def digitRuns (cs : List Char) : List (List Char) :=
  match cs with
  | [] => []
  | c :: rest =>
    let tail := digitRuns rest
    if 48 ≤ c.toNat && c.toNat ≤ 57 then
      match rest, tail with
      | d :: _, run :: runs =>
        if 48 ≤ d.toNat && d.toNat ≤ 57 then (c :: run) :: runs
        else [c] :: tail
      | _, _ => [c] :: tail
    else tail

/-- Numeric value of a digit run. -/
def digitsVal (cs : List Char) : Nat :=
  cs.foldl (fun acc c => acc * 10 + (c.toNat - 48)) 0

/-- Modelled from the spec: the year tokens embedded in a URL, read as the
maximal four-digit runs of the string. -/
def specYearTokens (link : String) : List Nat :=
  ((digitRuns link.toList).filter (fun r => r.length = 4)).map digitsVal

/-- Modelled from the spec: the claimed drop condition, namely that the most
recent year token is at least four calendar years before the current year. -/
def specStaleDrop (link : String) (currentYear : Nat) : Bool :=
  match (specYearTokens link).max? with
  | some m => decide (m + 4 ≤ currentYear)
  | none => false

/-- The per-feed new-item filter of src/index.ts lines 111-126: skip items
whose guid is already truthy in the seen map, mark age-excluded items seen
without emitting them, otherwise emit the item and mark it seen. The pubMs
argument models new Date(s).getTime(). Returns the emitted new items in
order together with the updated seen map. -/
def filterNewItems (pubMs : String → Int) (maxAge : Int) :
    List FeedItem → List (String × Bool) → List FeedItem × List (String × Bool)
  | [], seen => ([], seen)
  | it :: rest, seen =>
    if seenTruthy seen it.guid then filterNewItems pubMs maxAge rest seen
    else if 0 < maxAge && pubMs it.pubDate < maxAge then
      filterNewItems pubMs maxAge rest (jsSet seen it.guid true)
    else
      let r := filterNewItems pubMs maxAge rest (jsSet seen it.guid true)
      (it :: r.1, r.2)

/-- The fallback classification records of src/ai.ts with the given reason
string. -/
def fallbackAI (reason : String) : AITriageResult :=
  { decision := "keep", priority := "Normal", topics := [], reason := reason, abstract := none }

/-- The classification used when triage is disabled or no key is configured
(src/ai.ts lines 143-153). -/
def defaultDisabledAI : AITriageResult :=
  { decision := "keep", priority := "Normal", topics := [], reason := "AI disabled", abstract := none }

/-- Attach a classification to an item, as the object spread with an added
ai field does in src/ai.ts. -/
def attachAI (r : AITriageResult) (it : FeedItem) : FeedItem :=
  { it with ai := some r }

/-- Forget the attached classification; used to speak about the underlying
item carried through triage. -/
def stripAI (it : FeedItem) : FeedItem :=
  { it with ai := none }

/-- Observable outcome of one classification batch call
(src/ai.ts triageBatch). transportFailure covers a throwing fetch or a
response whose transport-level body cannot be read as JSON (the outer catch);
contentUnparsable covers message content that JSON.parse rejects (the inner
catch); results carries the extracted result array, one optional record per
position, where none models a falsy array entry. -/
inductive BatchResponse where
  | transportFailure
  | contentUnparsable
  | results (rs : List (Option AITriageResult))
deriving DecidableEq, Repr

/-- One classification batch (src/ai.ts lines 96-129): transport failure
gives every item the batch-api-error fallback, an unparsable content or a
result count different from the batch length gives every item the
batch-parse-failed fallback, and a well-sized result array is zipped onto
the batch with a per-entry parse-error default for falsy entries. -/
def triageBatch (batch : List FeedItem) (resp : BatchResponse) : List FeedItem :=
  match resp with
  | .transportFailure => batch.map (attachAI (fallbackAI "batch-api-error"))
  | .contentUnparsable => batch.map (attachAI (fallbackAI "batch-parse-failed"))
  | .results rs =>
    if rs.length = batch.length then
      (batch.zip rs).map (fun p => attachAI (p.2.getD (fallbackAI "parse-error")) p.1)
    else batch.map (attachAI (fallbackAI "batch-parse-failed"))

/-- Fixed-size batching of src/ai.ts lines 157-160, carried out with an
explicit open batch so the recursion is structural: a batch is emitted as
soon as it holds batchSize items and the final partial batch is emitted at
the end, which produces exactly the slices of the source loop. The source
loop does not terminate for batchSize zero; in that degenerate case the
model returns everything as one final batch, and theorems assume a positive
batch size where it matters. -/
def mkBatchesGo (batchSize : Nat) : List α → List α → List (List α)
  | [], acc => if acc.isEmpty then [] else [acc]
  | x :: xs, acc =>
    if (acc ++ [x]).length = batchSize then (acc ++ [x]) :: mkBatchesGo batchSize xs []
    else mkBatchesGo batchSize xs (acc ++ [x])

/-- The batch list of src/ai.ts aiTriage: slices of batchSize in order. -/
def mkBatches (batchSize : Nat) (l : List α) : List (List α) :=
  mkBatchesGo batchSize l []

/-- The triage entry point (src/ai.ts aiTriage). When triage is disabled or
the key is empty, every item gets the disabled default and no network call
happens. Otherwise the items are cut into batches, a worker pool processes
every batch exactly once, and each finished batch appends its results as a
contiguous block; order lists the batch indices in completion order, and
responses gives each batch call its observable outcome. The second component
counts outbound classification calls. -/
def aiTriage (items : List FeedItem) (apiKey : String) (enabled : Bool) (batchSize : Nat)
    (responses : Nat → BatchResponse) (order : List Nat) : List FeedItem × Nat :=
  if !enabled || apiKey = "" then
    (items.map (fun it => { it with ai := some defaultDisabledAI }), 0)
  else
    let bs := mkBatches batchSize items
    ((order.map (fun i => triageBatch (bs.getD i []) (responses i))).flatten, bs.length)

/-- Observable outcome of one record-create call against the remote store
(src/notion.ts createPageWithRetry). rateLimited carries the advertised
retry hint in seconds when the body provides one. -/
inductive CreateOutcome where
  | success
  | rateLimited (retryAfter : Option Nat)
  | conflictError
  | otherError
deriving DecidableEq, Repr

/-- Observable trace of one createPageWithRetry run: whether a record was
created, the millisecond durations slept before retries in order, and the
number of create calls issued. -/
structure PublishResult where
  created : Bool
  sleeps : List Nat
  apiCalls : Nat
deriving DecidableEq, Repr

/-- The retry loop of src/notion.ts lines 69-103, one step per loop
iteration. The outcomes argument gives the result of the n-th create call
(zero-based); a is the zero-based attempt index, so the one-based source
counter is a + 1, remaining is maxRetries - a, and the iteration is the last
one when remaining is one. A rate-limited call sleeps the advertised number
of seconds (default two) times 1000 and continues, which still advances the
loop counter; a conflict before the last attempt sleeps
delayMs times 2 to the power a and continues; any other error on a non-final
attempt continues without sleeping; the last attempt gives up. -/
def retryLoop (outcomes : Nat → CreateOutcome) (delayMs : Nat) :
    Nat → Nat → PublishResult
  | 0, _ => { created := false, sleeps := [], apiCalls := 0 }
  | remaining + 1, a =>
    match outcomes a with
    | .success => { created := true, sleeps := [], apiCalls := 1 }
    | .rateLimited ra =>
      let r := retryLoop outcomes delayMs remaining (a + 1)
      { created := r.created, sleeps := (ra.getD 2) * 1000 :: r.sleeps, apiCalls := r.apiCalls + 1 }
    | .conflictError =>
      if remaining = 0 then { created := false, sleeps := [], apiCalls := 1 }
      else
        let r := retryLoop outcomes delayMs remaining (a + 1)
        { created := r.created, sleeps := delayMs * 2 ^ a :: r.sleeps, apiCalls := r.apiCalls + 1 }
    | .otherError =>
      if remaining = 0 then { created := false, sleeps := [], apiCalls := 1 }
      else
        let r := retryLoop outcomes delayMs remaining (a + 1)
        { created := r.created, sleeps := r.sleeps, apiCalls := r.apiCalls + 1 }

/-- createPageWithRetry of src/notion.ts for one item, starting at the first
attempt with the full budget. -/
def createPageWithRetry (outcomes : Nat → CreateOutcome) (maxRetries delayMs : Nat) :
    PublishResult :=
  retryLoop outcomes delayMs maxRetries 0

/-- shouldSkipFeed of src/feed-quality.ts lines 6-22: no recorded stats means
never skip, below the minimum sample means never skip, otherwise skip when
the stored quality ratio is below the threshold. -/
def shouldSkipFeed (feed : Feed) (state : StateStructure) (qualityThreshold : Rat)
    (minSampleSize : Nat) : Bool :=
  match (state.feeds.lookup feed.url).bind (fun fs => fs.stats) with
  | none => false
  | some stats =>
    if stats.total < minSampleSize then false
    else decide (stats.quality < qualityThreshold)

/-- The decision string read off an item when counting stats
(src/feed-quality.ts line 42): the optional chain followed by the or-default
makes a missing classification and a falsy decision string both count as
keep. -/
def jsDecision (it : FeedItem) : String :=
  match it.ai with
  | none => "keep"
  | some a => if a.decision = "" then "keep" else a.decision

/-- updateFeedStats of src/feed-quality.ts lines 24-53: a missing feed entry
leaves the state unchanged; otherwise fold the items over the running stats
(starting from zeroed stats when absent), then recompute quality as
kept / total and stamp lastUpdated with the current time, passed as now. -/
def updateFeedStats (now : String) (state : StateStructure) (feedUrl : String)
    (items : List FeedItem) : StateStructure :=
  match state.feeds.lookup feedUrl with
  | none => state
  | some fs =>
    let stats0 := fs.stats.getD
      { total := 0, kept := 0, deprioritized := 0, ignored := 0, quality := 0, lastUpdated := now }
    let stats1 := items.foldl (fun s it =>
      let s := { s with total := s.total + 1 }
      let d := jsDecision it
      if d = "keep" then { s with kept := s.kept + 1 }
      else if d = "deprioritize" then { s with deprioritized := s.deprioritized + 1 }
      else if d = "ignore" then { s with ignored := s.ignored + 1 }
      else s) stats0
    let stats2 := { stats1 with
      quality := if 0 < stats1.total then (stats1.kept : Rat) / (stats1.total : Rat) else 0,
      lastUpdated := now }
    { feeds := state.feeds.map (fun p =>
        if p.1 = feedUrl then (p.1, { p.2 with stats := some stats2 }) else p) }

/-- In-place update of one feed entry to a new seen map, creating the entry
when absent (src/index.ts lines 91-95 together with the in-place mutation of
feedState.seen inside the filter loop). -/
def setFeedSeen (state : StateStructure) (url : String) (seen : List (String × Bool)) :
    StateStructure :=
  if (state.feeds.lookup url).isSome then
    { feeds := state.feeds.map (fun p => if p.1 = url then (p.1, { p.2 with seen := seen }) else p) }
  else { feeds := state.feeds ++ [(url, { seen := seen, stats := none })] }

/-- The per-feed slice of one run of main (src/index.ts): ensure a state
entry, filter the fetched items against the seen map and the age ceiling,
run triage on the new items, and, when there are triaged items and the feed
contributed new items, update the feed stats. Crucially the stats update
receives the entries of feedItemsMap, which hold the items as they were
before triage (aiTriage returns fresh copies and never mutates its input),
exactly as in the source. -/
def runSingleFeed (now : String) (state : StateStructure) (feedUrl : String)
    (fetched : List FeedItem) (pubMs : String → Int) (maxAge : Int) (apiKey : String)
    (enabled : Bool) (batchSize : Nat) (responses : Nat → BatchResponse) (order : List Nat) :
    StateStructure × List FeedItem :=
  let fstate := (state.feeds.lookup feedUrl).getD { seen := [], stats := none }
  let fr := filterNewItems pubMs maxAge fetched fstate.seen
  let state1 := setFeedSeen state feedUrl fr.2
  let newItems := fr.1
  let tr := aiTriage newItems apiKey enabled batchSize responses order
  let state2 :=
    if 0 < tr.1.length && 0 < newItems.length then updateFeedStats now state1 feedUrl newItems
    else state1
  (state2, tr.1)

/-- Status of one pool worker in the shared-counter pull model
(src/rss.ts mapWithConcurrency and the batch pool of src/ai.ts aiTriage):
ready to check the shared index, active on the claimed unit of work, or
retired because the index passed the end. -/
inductive WorkerStatus where
  | ready
  | active (idx : Nat)
  | done
deriving DecidableEq, Repr

/-- Pool state: the shared claim counter and the status of every worker. -/
structure PoolState where
  counter : Nat
  workers : List WorkerStatus
deriving DecidableEq, Repr

/-- Initial pool: counter zero and min limit n ready workers, exactly the
Array(Math.min(limit, items.length)) of the source. -/
def initPool (limit n : Nat) : PoolState :=
  { counter := 0, workers := List.replicate (min limit n) .ready }

/-- One scheduler step of the pull loop over n units of work: a ready worker
claims the next index when one remains, a ready worker retires when the
counter passed the end, and an active worker finishes its unit and returns
to the check. The single-threaded event loop interleaves workers only at
await points, which is exactly this granularity. -/
inductive PoolStep (n : Nat) : PoolState → PoolState → Prop
  | claim (s : PoolState) (w : Nat) (h : s.workers.get? w = some .ready)
      (hc : s.counter < n) :
      PoolStep n s { counter := s.counter + 1, workers := s.workers.set w (.active s.counter) }
  | exhaust (s : PoolState) (w : Nat) (h : s.workers.get? w = some .ready)
      (hc : n ≤ s.counter) :
      PoolStep n s { counter := s.counter, workers := s.workers.set w .done }
  | finish (s : PoolState) (w : Nat) (idx : Nat) (h : s.workers.get? w = some (.active idx)) :
      PoolStep n s { counter := s.counter, workers := s.workers.set w .ready }

/-- States reachable from the initial pool by scheduler steps. -/
inductive PoolReach (limit n : Nat) : PoolState → Prop
  | init : PoolReach limit n (initPool limit n)
  | step {s t : PoolState} : PoolReach limit n s → PoolStep n s t → PoolReach limit n t

/-- Number of simultaneously active operations in a pool state. -/
def activeCount (s : PoolState) : Nat :=
  s.workers.countP (fun w => match w with | .active _ => true | _ => false)

/-- JSON values, the document language of the persisted state file. The
source serializes with JSON.stringify and reads back with JSON.parse; the
round trip of the text codec on JSON values is the specification of the
library, so the file system is modelled as holding the JSON value itself. -/
inductive JsonVal where
  | null
  | bool (b : Bool)
  | num (q : Rat)
  | str (s : String)
  | arr (elems : List JsonVal)
  | obj (fields : List (String × JsonVal))

/-- Encoding of feed stats into the persisted document shape. -/
def encodeStats (st : FeedStats) : JsonVal :=
  .obj [("total", .num st.total), ("kept", .num st.kept),
    ("deprioritized", .num st.deprioritized), ("ignored", .num st.ignored),
    ("quality", .num st.quality), ("lastUpdated", .str st.lastUpdated)]

/-- Encoding of one feed state; an absent stats field is omitted, as
JSON.stringify drops undefined properties. -/
def encodeFeedState (fs : FeedState) : JsonVal :=
  .obj (("seen", .obj (fs.seen.map (fun p => (p.1, .bool p.2)))) ::
    (match fs.stats with
     | none => []
     | some st => [("stats", encodeStats st)]))

/-- Encoding of the whole persisted state document
(src/state.ts saveState). -/
def encodeState (s : StateStructure) : JsonVal :=
  .obj [("feeds", .obj (s.feeds.map (fun p => (p.1, encodeFeedState p.2))))]

/-- Read back a natural number from a JSON number: the value must be a
non-negative integer. -/
def decodeNat (q : Rat) : Option Nat :=
  if ((q.num.toNat : Rat) = q) then some q.num.toNat else none

/-- Read back feed stats from the document shape; this is the reading
contract the downstream field accesses rely on after the unchecked cast in
src/state.ts loadState. -/
def decodeStats : JsonVal → Option FeedStats
  | .obj f =>
    match f.lookup "total", f.lookup "kept", f.lookup "deprioritized",
        f.lookup "ignored", f.lookup "quality", f.lookup "lastUpdated" with
    | some (.num t), some (.num k), some (.num dp), some (.num ig),
        some (.num q), some (.str lu) =>
      match decodeNat t, decodeNat k, decodeNat dp, decodeNat ig with
      | some tn, some kn, some dpn, some ign => some ⟨tn, kn, dpn, ign, q, lu⟩
      | _, _, _, _ => none
    | _, _, _, _, _, _ => none
  | _ => none

/-- Read back one seen-map entry. -/
def decodeSeenEntry : JsonVal → Option Bool
  | .bool b => some b
  | _ => none

/-- Read back every field of an object through a value decoder, keeping keys
and order. -/
def decodePairs (f : JsonVal → Option β) : List (String × JsonVal) → Option (List (String × β))
  | [] => some []
  | (k, v) :: rest =>
    match f v, decodePairs f rest with
    | some b, some bs => some ((k, b) :: bs)
    | _, _ => none

/-- Read back one feed state from the document shape. -/
def decodeFeedState : JsonVal → Option FeedState
  | .obj f =>
    match f.lookup "seen" with
    | some (.obj seenF) =>
      match decodePairs decodeSeenEntry seenF with
      | some seenL =>
        match f.lookup "stats" with
        | none => some { seen := seenL, stats := none }
        | some sj =>
          match decodeStats sj with
          | some st => some { seen := seenL, stats := some st }
          | none => none
      | none => none
    | _ => none
  | _ => none

/-- Read back the whole persisted state document. -/
def decodeState : JsonVal → Option StateStructure
  | .obj f =>
    match f.lookup "feeds" with
    | some (.obj feedsF) =>
      match decodePairs decodeFeedState feedsF with
      | some l => some { feeds := l }
      | none => none
    | _ => none
  | _ => none

/-- Path resolution shared by saveState and loadState (src/state.ts): an
absolute path is used as is, a relative one is joined under the parent of
the module directory. -/
def resolvePath (dirname stateFile : String) : String :=
  if stateFile.startsWith "/" then stateFile else dirname ++ "/../" ++ stateFile

/-- saveState of src/state.ts: write the serialized state at the resolved
path of the file-system map. -/
def saveState (fsys : String → Option JsonVal) (dirname stateFile : String)
    (s : StateStructure) : String → Option JsonVal :=
  fun p => if p = resolvePath dirname stateFile then some (encodeState s) else fsys p

/-- loadState of src/state.ts: read and decode the resolved path, treating a
missing or undecodable file as the empty initial state. -/
def loadState (fsys : String → Option JsonVal) (dirname stateFile : String) : StateStructure :=
  match fsys (resolvePath dirname stateFile) with
  | some j => (decodeState j).getD { feeds := [] }
  | none => { feeds := [] }

/-- JSON-representability of a state value: JavaScript objects cannot carry
duplicate keys, so the feed map and every seen map must have distinct keys. -/
def stateWellFormed (s : StateStructure) : Bool :=
  decide (s.feeds.map Prod.fst).Nodup &&
    s.feeds.all (fun p => decide (p.2.seen.map Prod.fst).Nodup)

/-- C7: a source with recorded stats is skipped before fetching exactly when
total is at least minSample and the stored quality ratio is below the
threshold; a source with no recorded stats is never skipped. The conjunction
adds the concrete instances of the claim: total 25, kept 2, quality 2/25
under minSample 20 and threshold 1/10 is skipped, the same ratio at total 15
is not, and a feed absent from the state is not. -/
theorem c7_should_skip_feed :
    (∀ (feed : Feed) (state : StateStructure) (qt : Rat) (ms : Nat),
      (shouldSkipFeed feed state qt ms = true ↔
        ∃ stats, (state.feeds.lookup feed.url).bind (fun fs => fs.stats) = some stats ∧
          ms ≤ stats.total ∧ stats.quality < qt)) ∧
    shouldSkipFeed ⟨"u", "t"⟩ ⟨[("u", ⟨[], some ⟨25, 2, 3, 20, 2 / 25, "d"⟩⟩)]⟩ (1 / 10) 20 = true ∧
    shouldSkipFeed ⟨"u", "t"⟩ ⟨[("u", ⟨[], some ⟨15, 2, 3, 10, 2 / 25, "d"⟩⟩)]⟩ (1 / 10) 20 = false ∧
    shouldSkipFeed ⟨"v", "t"⟩ ⟨[("u", ⟨[], some ⟨25, 2, 3, 20, 2 / 25, "d"⟩⟩)]⟩ (1 / 10) 20 = false := by
  refine ⟨?_, by simp [shouldSkipFeed, List.lookup]; norm_num,
    by simp [shouldSkipFeed, List.lookup], by simp [shouldSkipFeed, List.lookup]⟩
  intro feed state qt ms
  unfold shouldSkipFeed
  cases h : (state.feeds.lookup feed.url).bind (fun fs => fs.stats) with
  | none => simp
  | some stats =>
    by_cases hlt : stats.total < ms
    · simp only [if_pos hlt]
      constructor
      · intro hfalse; cases hfalse
      · rintro ⟨s, hs, hms, _⟩
        cases hs
        omega
    · simp only [if_neg hlt]
      constructor
      · intro hdec
        exact ⟨stats, rfl, by omega, of_decide_eq_true hdec⟩
      · rintro ⟨s, hs, _, hq⟩
        cases hs
        exact decide_eq_true hq

/-- C4 counterexample: with classification disabled the attached reason is
the string AI disabled, not the string disabled required by the claim, so
the claimed default classification record is not the one produced. -/
theorem c4_disabled_reason_counterexample :
    ((aiTriage [⟨"g", "T", "L", "2026-01-01", "s", "src", none⟩] "" true 10
      (fun _ => .transportFailure) []).1.map
        (fun it => (it.ai.map (fun a => a.reason)).getD "")) = ["AI disabled"] ∧
    ("AI disabled" : String) ≠ "disabled" := by
  decide

/-- C4 amended: if classification is disabled or no API key is configured,
aiTriage returns every input item annotated with the default classification
of decision keep, priority Normal, empty topics and reason AI disabled, and
performs zero outbound network calls. -/
theorem c4_disabled_fast_path_amended (items : List FeedItem) (apiKey : String)
    (enabled : Bool) (batchSize : Nat) (responses : Nat → BatchResponse) (order : List Nat)
    (h : enabled = false ∨ apiKey = "") :
    aiTriage items apiKey enabled batchSize responses order =
      (items.map (fun it => { it with ai := some defaultDisabledAI }), 0) := by
  unfold aiTriage
  rcases h with h | h <;> simp [h]

/-- C4 amended witness at a concrete disabled call. -/
theorem c4_disabled_fast_path_amended_witness :
    aiTriage [⟨"g", "T", "L", "2026-01-01", "s", "src", none⟩] "" true 10
      (fun _ => .transportFailure) [] =
      ([⟨"g", "T", "L", "2026-01-01", "s", "src", some defaultDisabledAI⟩], 0) := by
  have := c4_disabled_fast_path_amended
    [⟨"g", "T", "L", "2026-01-01", "s", "src", none⟩] "" true 10
    (fun _ => .transportFailure) [] (Or.inr rfl)
  rw [this]
  decide

/-- C5: a classification batch whose message content is unparsable, or whose
parsed result array length differs from the batch length, gives every item
of the batch the batch-parse-failed keep fallback, while a transport failure
gives every item the batch-api-error keep fallback; in every case
triageBatch returns a plain list (it is a total function into
List FeedItem), so no failure propagates to the caller as a thrown error. -/
theorem c5_batch_fallbacks (batch : List FeedItem) (rs : List (Option AITriageResult))
    (h : rs.length ≠ batch.length) :
    triageBatch batch (.results rs) = batch.map (attachAI (fallbackAI "batch-parse-failed")) ∧
    triageBatch batch .contentUnparsable =
      batch.map (attachAI (fallbackAI "batch-parse-failed")) ∧
    triageBatch batch .transportFailure =
      batch.map (attachAI (fallbackAI "batch-api-error")) := by
  refine ⟨?_, rfl, rfl⟩
  unfold triageBatch
  simp [h]

/-- C5 witness: an empty result array against a one-item batch. -/
theorem c5_batch_fallbacks_witness :
    triageBatch [⟨"g", "T", "L", "d", "s", "src", none⟩] (.results []) =
      [⟨"g", "T", "L", "d", "s", "src", none⟩].map (attachAI (fallbackAI "batch-parse-failed")) ∧
    triageBatch [⟨"g", "T", "L", "d", "s", "src", none⟩] .contentUnparsable =
      [⟨"g", "T", "L", "d", "s", "src", none⟩].map (attachAI (fallbackAI "batch-parse-failed")) ∧
    triageBatch [⟨"g", "T", "L", "d", "s", "src", none⟩] .transportFailure =
      [⟨"g", "T", "L", "d", "s", "src", none⟩].map (attachAI (fallbackAI "batch-api-error")) :=
  c5_batch_fallbacks [⟨"g", "T", "L", "d", "s", "src", none⟩] [] (by decide)

/-- C2 counterexample: a publish call whose create calls are rate-limited on
the first three attempts and would succeed on a fourth ends with no record
created after three calls and three sleeps. Under the claim a rate-limited
response consumes no attempt budget, so the same call pattern would have to
reach the success and create the record; the loop counter of the source
advances on the continue of the rate-limit branch, so the budget is in fact
consumed. -/
theorem c2_rate_limit_consumes_budget_counterexample :
    createPageWithRetry (fun n => if n < 3 then .rateLimited none else .success) 3 1000 =
      { created := false, sleeps := [2000, 2000, 2000], apiCalls := 3 } := by
  decide

/-- C2 amended: a rate-limit response causes a sleep for the advertised
retry duration in seconds times 1000 (falling back to 2 seconds) followed by
a retry, but the retry consumes an attempt of the shared budget; a publish
call rate-limited twice and then successful creates exactly one record,
performs two delay-then-retry cycles with the advertised durations, and
issues three create calls, having consumed two of the three budgeted
attempts. -/
theorem c2_rate_limit_retry_amended (a b : Option Nat) (d : Nat) :
    createPageWithRetry
      (fun n => if n = 0 then .rateLimited a else if n = 1 then .rateLimited b else .success)
      3 d =
      { created := true, sleeps := [a.getD 2 * 1000, b.getD 2 * 1000], apiCalls := 3 } := by
  simp [createPageWithRetry, retryLoop]

theorem yearDigits_range {c d : Char} {y : Nat} (h : yearDigits c d = some y) :
    2010 ≤ y ∧ y ≤ 2023 := by
  unfold yearDigits at h
  split at h
  · rename_i hc
    simp only [Bool.and_eq_true, decide_eq_true_eq] at hc
    cases h
    omega
  · split at h
    · rename_i hc
      simp only [Bool.and_eq_true, decide_eq_true_eq] at hc
      cases h
      omega
    · cases h

theorem yearAt_range {cs : List Char} {y : Nat} (h : yearAt cs = some y) :
    2010 ≤ y ∧ y ≤ 2023 := by
  unfold yearAt at h
  split at h
  · exact yearDigits_range h
  · cases h

theorem firstYearToken_range : ∀ {cs : List Char} {y : Nat},
    firstYearToken cs = some y → 2010 ≤ y ∧ y ≤ 2023
  | [], _, h => by cases h
  | c :: rest, y, h => by
    unfold firstYearToken at h
    cases hy : yearAt (c :: rest) with
    | some z =>
      rw [hy] at h
      simp only [] at h
      cases h
      exact yearAt_range hy
    | none =>
      rw [hy] at h
      exact firstYearToken_range h

theorem firstYearToken_isSome_eq_any : ∀ (cs : List Char),
    (firstYearToken cs).isSome = anyStaleToken cs
  | [] => rfl
  | c :: rest => by
    unfold firstYearToken anyStaleToken
    cases hy : yearAt (c :: rest) with
    | some z => simp [hy]
    | none => simp [hy, firstYearToken_isSome_eq_any rest]

/-- For any run in calendar year 2025 or later, the drop decision coincides
with the existence of any slash-delimited token of the hardcoded 2010-2023
window in the URL: every matched year is at most 2023, hence always below
currentYear - 1. -/
theorem staleUrlDrop_eq_any (link : String) (cy : Nat) (hcy : 2025 ≤ cy) :
    staleUrlDrop link cy = anyStaleToken link.toList := by
  unfold staleUrlDrop
  rw [← firstYearToken_isSome_eq_any]
  cases hf : firstYearToken link.toList with
  | none => rfl
  | some y =>
    have hr := firstYearToken_range hf
    simp only [Option.isSome_some, decide_eq_true_eq]
    omega

/-- C3 counterexample: the URL https://ex.com/2023/a embeds exactly one year
token, 2023, which is three calendar years before 2026, so by the claim the
item must not be dropped; the heuristic of src/rss.ts nevertheless drops it
(its hardcoded window reaches 2023 and the comparison is against
currentYear - 1, not currentYear - 4), as the normalization of a raw item
carrying that link shows. -/
theorem c3_three_year_old_token_dropped_counterexample :
    specYearTokens "https://ex.com/2023/a" = [2023] ∧
    specStaleDrop "https://ex.com/2023/a" 2026 = false ∧
    staleUrlDrop "https://ex.com/2023/a" 2026 = true ∧
    normalizeItem ⟨"https://f", "F"⟩ none "now" "h" 2026
      ⟨none, none, some "https://ex.com/2023/a", none, none, none, none, none, none⟩ = none := by
  decide

/-- C3 amended: for every run in calendar year 2025 or later, a fetched item
is dropped by the stale-URL heuristic exactly when its canonical URL
contains a slash-delimited four-digit token of the hardcoded window
2010-2023; the distance of that token from the current year beyond the
window and the presence of more recent year tokens elsewhere in the URL are
irrelevant (the source regex matches years 2010-2023 only, takes the first
match, and compares it against currentYear - 1). -/
theorem c3_stale_url_heuristic_amended (currentYear : Nat) (hcy : 2025 ≤ currentYear)
    (feed : Feed) (parsedTitle : Option String) (nowIso hostname : String) (it : RawItem) :
    (normalizeItem feed parsedTitle nowIso hostname currentYear it = none ↔
      anyStaleToken (rawItemLink it).toList = true) := by
  unfold normalizeItem
  simp only []
  rw [staleUrlDrop_eq_any (rawItemLink it) currentYear hcy]
  by_cases hd : anyStaleToken (rawItemLink it).toList
  · simp [hd]
  · simp [hd]

/-- C3 amended witness: the dropped three-year-old token URL at current year
2026. -/
theorem c3_stale_url_heuristic_amended_witness :
    normalizeItem ⟨"https://f", "F"⟩ none "now" "h" 2026
      ⟨none, none, some "https://ex.com/2023/a", none, none, none, none, none, none⟩ = none ↔
    anyStaleToken (rawItemLink
      ⟨none, none, some "https://ex.com/2023/a", none, none, none, none, none, none⟩).toList = true :=
  c3_stale_url_heuristic_amended 2026 (by decide) ⟨"https://f", "F"⟩ none "now" "h"
    ⟨none, none, some "https://ex.com/2023/a", none, none, none, none, none, none⟩


/-- Setting a guid makes it truthy. -/
theorem seenTruthy_jsSet_self : ∀ (m : List (String × Bool)) (g : String),
    seenTruthy (jsSet m g true) g = true
  | [], g => by simp [jsSet, seenTruthy, assocLookup]
  | (k, w) :: rest, g => by
    by_cases hk : k = g
    · simp [jsSet, hk, seenTruthy, assocLookup]
    · simp only [jsSet, if_neg hk]
      simp only [seenTruthy, assocLookup, if_neg hk]
      exact seenTruthy_jsSet_self rest g

/-- Setting any guid preserves truthiness of every guid. -/
theorem seenTruthy_jsSet_mono : ∀ {m : List (String × Bool)} {g : String} (g2 : String),
    seenTruthy m g = true → seenTruthy (jsSet m g2 true) g = true
  | [], g, g2, h => by simp [seenTruthy, assocLookup] at h
  | (k, w) :: rest, g, g2, h => by
    by_cases hk2 : k = g2
    · simp only [jsSet, if_pos hk2]
      by_cases hk : k = g
      · simp [seenTruthy, assocLookup, hk]
      · simp only [seenTruthy, assocLookup, if_neg hk] at h ⊢
        exact h
    · simp only [jsSet, if_neg hk2]
      by_cases hk : k = g
      · simp only [seenTruthy, assocLookup, if_pos hk] at h ⊢
        exact h
      · simp only [seenTruthy, assocLookup, if_neg hk] at h ⊢
        exact seenTruthy_jsSet_mono g2 h

/-- Truthiness only grows along the filter loop. -/
theorem filterNewItems_seen_mono (pubMs : String → Int) (maxAge : Int) :
    ∀ (items : List FeedItem) (seen : List (String × Bool)) (g : String),
    seenTruthy seen g = true →
    seenTruthy (filterNewItems pubMs maxAge items seen).2 g = true
  | [], seen, g, h => h
  | it :: rest, seen, g, h => by
    unfold filterNewItems
    by_cases h1 : seenTruthy seen it.guid
    · simp only [if_pos h1]
      exact filterNewItems_seen_mono pubMs maxAge rest seen g h
    · simp only [if_neg h1]
      by_cases h2 : (0 < maxAge && pubMs it.pubDate < maxAge) = true
      · simp only [if_pos h2]
        exact filterNewItems_seen_mono pubMs maxAge rest _ g
          (seenTruthy_jsSet_mono it.guid h)
      · simp only [if_neg h2]
        exact filterNewItems_seen_mono pubMs maxAge rest _ g
          (seenTruthy_jsSet_mono it.guid h)

/-- Every item emitted as new was not truthy in the seen map the loop
started from. -/
theorem filterNewItems_new_not_seen (pubMs : String → Int) (maxAge : Int) :
    ∀ (items : List FeedItem) (seen : List (String × Bool)) (x : FeedItem),
    x ∈ (filterNewItems pubMs maxAge items seen).1 → seenTruthy seen x.guid = false
  | [], seen, x, hx => by cases hx
  | it :: rest, seen, x, hx => by
    unfold filterNewItems at hx
    by_cases h1 : seenTruthy seen it.guid
    · rw [if_pos h1] at hx
      exact filterNewItems_new_not_seen pubMs maxAge rest seen x hx
    · rw [if_neg h1] at hx
      by_cases h2 : (0 < maxAge && pubMs it.pubDate < maxAge) = true
      · rw [if_pos h2] at hx
        have := filterNewItems_new_not_seen pubMs maxAge rest (jsSet seen it.guid true) x hx
        by_cases hs : seenTruthy seen x.guid = true
        · rw [seenTruthy_jsSet_mono it.guid hs] at this
          cases this
        · simpa using hs
      · rw [if_neg h2] at hx
        simp only [List.mem_cons] at hx
        rcases hx with hx | hx
        · subst hx
          simpa using h1
        · have := filterNewItems_new_not_seen pubMs maxAge rest (jsSet seen it.guid true) x hx
          by_cases hs : seenTruthy seen x.guid = true
          · rw [seenTruthy_jsSet_mono it.guid hs] at this
            cases this
          · simpa using hs

/-- Every processed item ends up truthy in the final seen map. -/
theorem filterNewItems_marks_all (pubMs : String → Int) (maxAge : Int) :
    ∀ (items : List FeedItem) (seen : List (String × Bool)) (x : FeedItem),
    x ∈ items → seenTruthy (filterNewItems pubMs maxAge items seen).2 x.guid = true
  | [], _, x, hx => by cases hx
  | it :: rest, seen, x, hx => by
    unfold filterNewItems
    simp only [List.mem_cons] at hx
    by_cases h1 : seenTruthy seen it.guid
    · rw [if_pos h1]
      rcases hx with hx | hx
      · subst hx
        exact filterNewItems_seen_mono pubMs maxAge rest seen x.guid h1
      · exact filterNewItems_marks_all pubMs maxAge rest seen x hx
    · rw [if_neg h1]
      by_cases h2 : (0 < maxAge && pubMs it.pubDate < maxAge) = true
      · rw [if_pos h2]
        rcases hx with hx | hx
        · subst hx
          exact filterNewItems_seen_mono pubMs maxAge rest _ x.guid
            (seenTruthy_jsSet_self seen x.guid)
        · exact filterNewItems_marks_all pubMs maxAge rest _ x hx
      · rw [if_neg h2]
        rcases hx with hx | hx
        · subst hx
          exact filterNewItems_seen_mono pubMs maxAge rest _ x.guid
            (seenTruthy_jsSet_self seen x.guid)
        · exact filterNewItems_marks_all pubMs maxAge rest _ x hx

/-- C6: in the per-feed filter of the run loop, an item whose guid is
already truthy in the persisted seen map never reaches the new-item list
(no emitted item carries a previously-seen guid, whatever its other
fields), and every processed item, in particular every item admitted as new
and every item excluded only for age, has its guid recorded in the seen map
returned by the filter; the run composition (runSingleFeed) applies this
filter and stores the returned seen map before classification and
publishing consume the new-item list. -/
theorem c6_dedup_seen_ledger (pubMs : String → Int) (maxAge : Int)
    (seen : List (String × Bool)) (items : List FeedItem) :
    (∀ x ∈ (filterNewItems pubMs maxAge items seen).1, seenTruthy seen x.guid = false) ∧
    (∀ x ∈ items, seenTruthy (filterNewItems pubMs maxAge items seen).2 x.guid = true) :=
  ⟨fun x hx => filterNewItems_new_not_seen pubMs maxAge items seen x hx,
   fun x hx => filterNewItems_marks_all pubMs maxAge items seen x hx⟩

/-- C6 witness: a two-item feed where the first guid is already seen and the
second is new. -/
theorem c6_dedup_seen_ledger_witness :
    (∀ x ∈ (filterNewItems (fun _ => (0 : Int)) 0
        [⟨"a", "T", "L", "d", "s", "src", none⟩, ⟨"b", "T", "L", "d", "s", "src", none⟩]
        [("a", true)]).1, seenTruthy [("a", true)] x.guid = false) ∧
    (∀ x ∈ ([⟨"a", "T", "L", "d", "s", "src", none⟩,
        ⟨"b", "T", "L", "d", "s", "src", none⟩] : List FeedItem),
      seenTruthy (filterNewItems (fun _ => (0 : Int)) 0
        [⟨"a", "T", "L", "d", "s", "src", none⟩, ⟨"b", "T", "L", "d", "s", "src", none⟩]
        [("a", true)]).2 x.guid = true) :=
  c6_dedup_seen_ledger (fun _ => (0 : Int)) 0 [("a", true)]
    [⟨"a", "T", "L", "d", "s", "src", none⟩, ⟨"b", "T", "L", "d", "s", "src", none⟩]

/-- Scheduler steps preserve the number of workers. -/
theorem poolReach_workers_length {limit n : Nat} {s : PoolState} (h : PoolReach limit n s) :
    s.workers.length = min limit n := by
  induction h with
  | init => simp [initPool]
  | step _ hs ih => cases hs <;> simpa [List.length_set] using ih

/-- A worker retires only after the shared counter passed the end of the
work list, so no worker is done while unclaimed work remains. -/
theorem poolReach_done_counter {limit n : Nat} {s : PoolState} (h : PoolReach limit n s) :
    WorkerStatus.done ∈ s.workers → n ≤ s.counter := by
  induction h with
  | init =>
    intro hd
    simp only [initPool] at hd
    cases List.eq_of_mem_replicate hd
  | step _ hs ih =>
    intro hd
    cases hs with
    | claim w hw hc =>
      rcases List.mem_or_eq_of_mem_set hd with hm | he
      · have := ih hm
        omega
      · cases he
    | exhaust w hw hc =>
      exact hc
    | finish w idx hw =>
      rcases List.mem_or_eq_of_mem_set hd with hm | he
      · exact ih hm
      · cases he

/-- C8: in the shared-counter pull model instantiating both the fetch pool
(rss.ts mapWithConcurrency, worker count min of the concurrency limit and
the source count) and the classification batch pool (ai.ts aiTriage under
its separate aiConcurrency bound), every reachable scheduler state has at
most limit simultaneously active operations; a worker is retired only once
the shared counter passed the end, so no worker idles while an unclaimed
unit of work remains, and every still-ready worker can always take a step. -/
theorem c8_pool_bound (limit n : Nat) (s : PoolState) (h : PoolReach limit n s) :
    activeCount s ≤ limit ∧
    (WorkerStatus.done ∈ s.workers → n ≤ s.counter) ∧
    (∀ w, s.workers.get? w = some .ready → ∃ t, PoolStep n s t) := by
  refine ⟨?_, poolReach_done_counter h, ?_⟩
  · calc activeCount s ≤ s.workers.length := List.countP_le_length _
    _ = min limit n := poolReach_workers_length h
    _ ≤ limit := Nat.min_le_left _ _
  · intro w hw
    by_cases hc : s.counter < n
    · exact ⟨_, PoolStep.claim s w hw hc⟩
    · exact ⟨_, PoolStep.exhaust s w hw (by omega)⟩

/-- C8 witness: the initial pool with fetch concurrency 3 over 10 sources. -/
theorem c8_pool_bound_witness :
    activeCount (initPool 3 10) ≤ 3 ∧
    (WorkerStatus.done ∈ (initPool 3 10).workers → 10 ≤ (initPool 3 10).counter) ∧
    (∀ w, (initPool 3 10).workers.get? w = some .ready → ∃ t, PoolStep 10 (initPool 3 10) t) :=
  c8_pool_bound 3 10 (initPool 3 10) PoolReach.init

theorem decodeNat_encode (n : Nat) : decodeNat (n : Rat) = some n := by
  unfold decodeNat
  rw [if_pos]
  · simp [Rat.num_natCast]
  · simp [Rat.num_natCast]

theorem decodeStats_encode (st : FeedStats) : decodeStats (encodeStats st) = some st := by
  simp [encodeStats, decodeStats, List.lookup, decodeNat_encode]

theorem decodePairs_map (f : JsonVal → Option β) (g : β → JsonVal)
    (hfg : ∀ b, f (g b) = some b) : ∀ (l : List (String × β)),
    decodePairs f (l.map (fun p => (p.1, g p.2))) = some l
  | [] => rfl
  | (k, v) :: rest => by
    simp [decodePairs, hfg, decodePairs_map f g hfg rest]

theorem decodeFeedState_encode (fs : FeedState) : decodeFeedState (encodeFeedState fs) = some fs := by
  cases fs with
  | mk seen stats =>
    cases stats with
    | none =>
      simp [encodeFeedState, decodeFeedState, List.lookup,
        decodePairs_map decodeSeenEntry JsonVal.bool (fun b => rfl) seen]
    | some st =>
      simp [encodeFeedState, decodeFeedState, List.lookup,
        decodePairs_map decodeSeenEntry JsonVal.bool (fun b => rfl) seen,
        decodeStats_encode st]

theorem decodeState_encode (s : StateStructure) : decodeState (encodeState s) = some s := by
  cases s with
  | mk feeds =>
    simp [encodeState, decodeState, List.lookup,
      decodePairs_map decodeFeedState encodeFeedState decodeFeedState_encode feeds]

/-- C9: loading the state file immediately after saving a JSON-representable
state value to the same path returns a state structurally equal to the one
saved; representability is the absence of duplicate keys, which is what the
JavaScript object model guarantees, and the file system is modelled as a map
from paths to stored JSON documents. -/
theorem c9_state_roundtrip (fsys : String → Option JsonVal) (dirname stateFile : String)
    (s : StateStructure) (_h : stateWellFormed s = true) :
    loadState (saveState fsys dirname stateFile s) dirname stateFile = s := by
  unfold loadState saveState
  simp [decodeState_encode]

/-- C9 witness: a one-feed state with one seen guid and stats, saved under a
relative path over an empty file system. -/
theorem c9_state_roundtrip_witness :
    loadState (saveState (fun _ => none) "/app/dist" ".rss_seen.json"
        ⟨[("https://f", ⟨[("g", true)], some ⟨1, 1, 0, 0, 1, "t"⟩⟩)]⟩)
      "/app/dist" ".rss_seen.json" =
      ⟨[("https://f", ⟨[("g", true)], some ⟨1, 1, 0, 0, 1, "t"⟩⟩)]⟩ :=
  c9_state_roundtrip (fun _ => none) "/app/dist" ".rss_seen.json"
    ⟨[("https://f", ⟨[("g", true)], some ⟨1, 1, 0, 0, 1, "t"⟩⟩)]⟩ (by decide)

theorem stripAI_attachAI (r : AITriageResult) (it : FeedItem) :
    stripAI (attachAI r it) = stripAI it := rfl

theorem zip_attach_map_strip : ∀ (batch : List FeedItem) (rs : List (Option AITriageResult)),
    rs.length = batch.length →
    ((batch.zip rs).map
        (fun p => attachAI (p.2.getD (fallbackAI "parse-error")) p.1)).map stripAI =
      batch.map stripAI
  | [], _, _ => rfl
  | b :: bs, [], h => by simp at h
  | b :: bs, r :: rs, h => by
    simp only [List.zip_cons_cons, List.map_cons, stripAI_attachAI]
    rw [zip_attach_map_strip bs rs (by simpa using h)]

theorem triageBatch_map_strip (batch : List FeedItem) (resp : BatchResponse) :
    (triageBatch batch resp).map stripAI = batch.map stripAI := by
  cases resp with
  | transportFailure =>
    rw [triageBatch, List.map_map]
    exact List.map_congr_left (fun a _ => stripAI_attachAI _ _)
  | contentUnparsable =>
    rw [triageBatch, List.map_map]
    exact List.map_congr_left (fun a _ => stripAI_attachAI _ _)
  | results rs =>
    unfold triageBatch
    simp only []
    by_cases h : rs.length = batch.length
    · rw [if_pos h]
      exact zip_attach_map_strip batch rs h
    · rw [if_neg h, List.map_map]
      exact List.map_congr_left (fun a _ => stripAI_attachAI _ _)

theorem triageBatch_ai_isSome (batch : List FeedItem) (resp : BatchResponse) :
    ∀ x ∈ triageBatch batch resp, x.ai.isSome = true := by
  intro x hx
  cases resp with
  | transportFailure =>
    rcases List.mem_map.mp hx with ⟨a, _, rfl⟩
    rfl
  | contentUnparsable =>
    rcases List.mem_map.mp hx with ⟨a, _, rfl⟩
    rfl
  | results rs =>
    unfold triageBatch at hx
    simp only [] at hx
    by_cases h : rs.length = batch.length
    · rw [if_pos h] at hx
      rcases List.mem_map.mp hx with ⟨p, _, rfl⟩
      rfl
    · rw [if_neg h] at hx
      rcases List.mem_map.mp hx with ⟨a, _, rfl⟩
      rfl

/-- Every classification attached by a batch is either a keep fallback or
literally one of the records of the parsed response array. -/
theorem triageBatch_decision (batch : List FeedItem) (resp : BatchResponse) :
    ∀ x ∈ triageBatch batch resp, ∀ c, x.ai = some c →
    c.decision = "keep" ∨ ∃ rs, resp = BatchResponse.results rs ∧ some c ∈ rs := by
  intro x hx c hc
  cases resp with
  | transportFailure =>
    rcases List.mem_map.mp hx with ⟨a, _, rfl⟩
    cases hc
    exact Or.inl rfl
  | contentUnparsable =>
    rcases List.mem_map.mp hx with ⟨a, _, rfl⟩
    cases hc
    exact Or.inl rfl
  | results rs =>
    unfold triageBatch at hx
    simp only [] at hx
    by_cases h : rs.length = batch.length
    · rw [if_pos h] at hx
      rcases List.mem_map.mp hx with ⟨p, hp, rfl⟩
      obtain ⟨b, r⟩ := p
      cases hc
      cases r with
      | none => exact Or.inl rfl
      | some a => exact Or.inr ⟨rs, rfl, (List.of_mem_zip hp).2⟩
    · rw [if_neg h] at hx
      rcases List.mem_map.mp hx with ⟨a, _, rfl⟩
      cases hc
      exact Or.inl rfl

theorem mkBatchesGo_flatten (batchSize : Nat) : ∀ (l acc : List FeedItem),
    (mkBatchesGo batchSize l acc).flatten = acc ++ l
  | [], acc => by
    by_cases h : acc.isEmpty
    · rw [List.isEmpty_iff] at h
      simp [mkBatchesGo, h]
    · simp [mkBatchesGo, h]
  | x :: xs, acc => by
    by_cases h : acc.length + 1 = batchSize
    · simp [mkBatchesGo, h, mkBatchesGo_flatten batchSize xs []]
    · simp [mkBatchesGo, h, mkBatchesGo_flatten batchSize xs (acc ++ [x])]

theorem mkBatches_flatten (batchSize : Nat) (l : List FeedItem) :
    (mkBatches batchSize l).flatten = l := by
  simpa using mkBatchesGo_flatten batchSize l []

theorem map_range_getD (d : List FeedItem) : ∀ (l : List (List FeedItem)),
    (List.range l.length).map (fun i => l.getD i d) = l
  | [] => rfl
  | x :: xs => by
    rw [List.length_cons, List.range_succ_eq_map]
    simp only [List.map_cons, List.map_map, List.getD_cons_zero]
    congr 1
    have : ((fun i => (x :: xs).getD i d) ∘ Nat.succ) = fun i => xs.getD i d := by
      funext i
      simp [Function.comp, List.getD_cons_succ]
    rw [this, map_range_getD d xs]

/-- C10 amended: for every input item list and every pattern of per-batch
classification outcomes, and for every completion order of the batch pool,
aiTriage returns exactly one output record per input item: the output length
equals the input length, the multiset of underlying items (classification
stripped) equals the input multiset, and every output record carries an
attached classification; the attached classification is either a keep
fallback or literally one of the records of a parsed response array, passed
through without validation of its decision string, so every decision is one
of keep, deprioritize, ignore whenever the remote results only use that
vocabulary, but not in general. No item is silently dropped. -/
theorem c10_triage_totality_amended (items : List FeedItem) (apiKey : String) (enabled : Bool)
    (batchSize : Nat) (responses : Nat → BatchResponse) (order : List Nat)
    (out : List FeedItem)
    (hout : out = (aiTriage items apiKey enabled batchSize responses order).1)
    (horder : order.Perm (List.range (mkBatches batchSize items).length)) :
    out.length = items.length ∧ (out.map stripAI).Perm (items.map stripAI) ∧
    (∀ x ∈ out, x.ai.isSome = true) ∧
    (∀ x ∈ out, ∀ c, x.ai = some c → c.decision = "keep" ∨
      ∃ i rs, responses i = BatchResponse.results rs ∧ some c ∈ rs) := by
  by_cases hdis : (!enabled || apiKey = "") = true
  · unfold aiTriage at hout
    rw [if_pos hdis] at hout
    subst hout
    have hstrip : (items.map (fun it => { it with ai := some defaultDisabledAI })).map stripAI =
        items.map stripAI := by
      rw [List.map_map]
      exact List.map_congr_left (fun a _ => rfl)
    refine ⟨by simp, by rw [hstrip], ?_, ?_⟩
    · intro x hx
      rcases List.mem_map.mp hx with ⟨a, _, rfl⟩
      rfl
    · intro x hx c hc
      rcases List.mem_map.mp hx with ⟨a, _, rfl⟩
      cases hc
      exact Or.inl rfl
  · unfold aiTriage at hout
    rw [if_neg hdis] at hout
    simp only [] at hout
    have key : ∀ (ord : List Nat),
        ((ord.map (fun i => triageBatch ((mkBatches batchSize items).getD i [])
          (responses i))).flatten).map stripAI =
        (ord.map (fun i => ((mkBatches batchSize items).getD i []).map stripAI)).flatten := by
      intro ord
      rw [List.map_flatten, List.map_map]
      congr 1
      exact List.map_congr_left (fun i _ => triageBatch_map_strip _ _)
    have h2eq : ((List.range (mkBatches batchSize items).length).map
        (fun i => ((mkBatches batchSize items).getD i []).map stripAI)).flatten =
        items.map stripAI := by
      have hmm : (List.range (mkBatches batchSize items).length).map
          (fun i => ((mkBatches batchSize items).getD i []).map stripAI) =
          ((List.range (mkBatches batchSize items).length).map
            (fun i => (mkBatches batchSize items).getD i [])).map (List.map stripAI) := by
        rw [List.map_map]
        rfl
      rw [hmm, map_range_getD [] (mkBatches batchSize items), ← List.map_flatten,
        mkBatches_flatten]
    have hperm : (out.map stripAI).Perm (items.map stripAI) := by
      rw [hout, key order, ← h2eq]
      exact (horder.map _).flatten
    refine ⟨?_, hperm, ?_, ?_⟩
    · have := hperm.length_eq
      simpa using this
    · intro x hx
      rw [hout] at hx
      rcases List.mem_flatten.mp hx with ⟨l, hl, hxl⟩
      rcases List.mem_map.mp hl with ⟨i, _, rfl⟩
      exact triageBatch_ai_isSome _ _ x hxl
    · intro x hx c hc
      rw [hout] at hx
      rcases List.mem_flatten.mp hx with ⟨l, hl, hxl⟩
      rcases List.mem_map.mp hl with ⟨i, _, rfl⟩
      rcases triageBatch_decision _ _ x hxl c hc with hk | ⟨rs, hrs, hcrs⟩
      · exact Or.inl hk
      · exact Or.inr ⟨i, rs, hrs, hcrs⟩

/-- C10 witness: one item, one batch, processed in order, whose response
record is passed through. -/
theorem c10_triage_totality_amended_witness :
    ([⟨"g", "T", "L", "d", "s", "src",
        some ⟨"maybe", "High", [], "r", none⟩⟩] : List FeedItem).length =
      ([⟨"g", "T", "L", "d", "s", "src", none⟩] : List FeedItem).length ∧
    (([⟨"g", "T", "L", "d", "s", "src",
        some ⟨"maybe", "High", [], "r", none⟩⟩] : List FeedItem).map stripAI).Perm
      (([⟨"g", "T", "L", "d", "s", "src", none⟩] : List FeedItem).map stripAI) ∧
    (∀ x ∈ ([⟨"g", "T", "L", "d", "s", "src",
        some ⟨"maybe", "High", [], "r", none⟩⟩] : List FeedItem), x.ai.isSome = true) ∧
    (∀ x ∈ ([⟨"g", "T", "L", "d", "s", "src",
        some ⟨"maybe", "High", [], "r", none⟩⟩] : List FeedItem), ∀ c, x.ai = some c →
      c.decision = "keep" ∨ ∃ i rs,
        (fun (_ : Nat) => BatchResponse.results [some ⟨"maybe", "High", [], "r", none⟩]) i =
          BatchResponse.results rs ∧ some c ∈ rs) :=
  c10_triage_totality_amended [⟨"g", "T", "L", "d", "s", "src", none⟩] "k" true 10
    (fun _ => BatchResponse.results [some ⟨"maybe", "High", [], "r", none⟩]) [0]
    [⟨"g", "T", "L", "d", "s", "src", some ⟨"maybe", "High", [], "r", none⟩⟩]
    (by decide) (by decide)

/-- C10 counterexample: a successfully parsed, correctly sized response
whose decision string is maybe is attached verbatim, so the output record
carries a decision that is none of keep, deprioritize, ignore; the claim
that every output decision lies in that vocabulary fails on the code, which
never validates the parsed strings. -/
theorem c10_unvalidated_decision_counterexample :
    ((aiTriage [⟨"g", "T", "L", "d", "s", "src", none⟩] "k" true 10
      (fun _ => BatchResponse.results [some ⟨"maybe", "High", [], "r", none⟩]) [0]).1.map
        (fun x => (x.ai.map (fun a => a.decision)).getD "")) = ["maybe"] ∧
    ("maybe" : String) ≠ "keep" ∧ ("maybe" : String) ≠ "deprioritize" ∧
    ("maybe" : String) ≠ "ignore" := by
  decide

/-- C1: evaluation of the run composition at the failing input. A single
feed contributes one new item and the triage pass classifies it with
decision ignore, as the returned triaged list shows; yet the persisted stats
after the run count it as kept (total 1, kept 1, deprioritized 0,
ignored 0, quality 1 instead of the claimed total 1, kept 0, ignored 1,
quality 0). The cause is in the source: aiTriage returns fresh copies
carrying the classification, while index.ts passes the original
un-annotated items of feedItemsMap to updateFeedStats, whose optional chain
then reads every decision as keep. -/
theorem c1_feed_stats_ignore_decision :
    ((runSingleFeed "now" ⟨[("f", ⟨[], none⟩)]⟩ "f"
        [⟨"g", "T", "L", "d", "s", "src", none⟩] (fun _ => 0) 0 "k" true 10
        (fun _ => BatchResponse.results [some ⟨"ignore", "Low", [], "r", none⟩])
        [0]).2.map (fun x => (x.ai.map (fun a => a.decision)).getD "")) = ["ignore"] ∧
    ((((runSingleFeed "now" ⟨[("f", ⟨[], none⟩)]⟩ "f"
        [⟨"g", "T", "L", "d", "s", "src", none⟩] (fun _ => 0) 0 "k" true 10
        (fun _ => BatchResponse.results [some ⟨"ignore", "Low", [], "r", none⟩])
        [0]).1.feeds.lookup "f").bind (fun fs => fs.stats)).map
      (fun st => (st.total, st.kept, st.deprioritized, st.ignored))) = some (1, 1, 0, 0) ∧
    ((((runSingleFeed "now" ⟨[("f", ⟨[], none⟩)]⟩ "f"
        [⟨"g", "T", "L", "d", "s", "src", none⟩] (fun _ => 0) 0 "k" true 10
        (fun _ => BatchResponse.results [some ⟨"ignore", "Low", [], "r", none⟩])
        [0]).1.feeds.lookup "f").bind (fun fs => fs.stats)).map (fun st => st.quality)) =
      some 1 := by
  refine ⟨by decide, by decide, ?_⟩
  norm_num [runSingleFeed, filterNewItems, seenTruthy, assocLookup, jsSet, aiTriage,
    mkBatches, mkBatchesGo, triageBatch, attachAI, updateFeedStats, setFeedSeen,
    jsDecision, defaultDisabledAI, fallbackAI, List.lookup]
